import Mathlib

set_option maxHeartbeats 1000000
set_option maxRecDepth 4096

/- Shallow embedding of the Apple Health export processor:
   apple_health_processor.py (HealthDataProcessor: parse_records_by_type,
   get_available_record_types, process_workouts),
   health_data_report.py (HealthDataReport: clean_metric_name,
   add_dataset_summary, create_report), and the orchestration step
   _save_metric_data of interactive_health_processor.py. -/

/-- Numeric value of a list of decimal digit characters. -/
def digitsToNat (ds : List Char) : Nat :=
  ds.foldl (fun a c => a * 10 + (c.toNat - 48)) 0

/-- Models the exponent suffix accepted by the Python float grammar: an optional
sign then at least one digit, with nothing following. -/
def pyFloatExp (r : List Char) : Option Int :=
  let (esgn, r1) : Int × List Char :=
    match r with
    | '+' :: r2 => (1, r2)
    | '-' :: r2 => (-1, r2)
    | _ => (1, r)
  let eds := r1.takeWhile Char.isDigit
  let r2 := r1.dropWhile Char.isDigit
  if eds.isEmpty || !r2.isEmpty then none
  else some (esgn * (digitsToNat eds : Int))

/-- Models the per-value numeric parse performed by pandas.to_numeric and Python
float on decimal literals: optional surrounding whitespace, optional sign, an
integer part and optional fractional part (at least one digit between them),
optional exponent. Special spellings such as inf, nan and digit-group
underscores are outside the model; the exported health values are plain
decimal literals. -/
def pyFloat (s : String) : Option Rat :=
  let t := ((s.data.dropWhile Char.isWhitespace).reverse.dropWhile Char.isWhitespace).reverse
  let (neg, s1) : Bool × List Char :=
    match t with
    | '+' :: r => (false, r)
    | '-' :: r => (true, r)
    | _ => (false, t)
  let ip := s1.takeWhile Char.isDigit
  let s2 := s1.dropWhile Char.isDigit
  let (fp, s3) : List Char × List Char :=
    match s2 with
    | '.' :: r => (r.takeWhile Char.isDigit, r.dropWhile Char.isDigit)
    | _ => ([], s2)
  if ip.isEmpty && fp.isEmpty then none
  else
    let mag : Int := (digitsToNat ip * 10 ^ fp.length + digitsToNat fp : Nat)
    let num : Int := if neg then -mag else mag
    match s3 with
    | [] => some (mkRat num (10 ^ fp.length))
    | c :: r =>
      if c == 'e' || c == 'E' then
        (pyFloatExp r).map (fun ex =>
          if 0 ≤ ex then mkRat (num * (10 : Int) ^ ex.toNat) (10 ^ fp.length)
          else mkRat num (10 ^ fp.length * 10 ^ (-ex).toNat))
      else none

/-- Models pandas.to_datetime on the export's fixed timestamp shape
YYYY-MM-DD HH:MM:SS with a signed HHMM UTC offset, yielding an offset-adjusted
linear second count; any other shape is rejected with none (to_datetime raises
there). The linear day encoding (372 days a year, 31 a month) preserves the
chronological order of well-formed stamps, which is all the consumers inspect. -/
def parseTimestamp (s : String) : Option Int :=
  match s.data with
  | [y1, y2, y3, y4, '-', m1, m2, '-', d1, d2, ' ',
     h1, h2, ':', n1, n2, ':', e1, e2, ' ', os, o1, o2, o3, o4] =>
    if ([y1, y2, y3, y4, m1, m2, d1, d2, h1, h2, n1, n2, e1, e2, o1, o2, o3, o4].all Char.isDigit
        && (os == '+' || os == '-')) then
      let y := digitsToNat [y1, y2, y3, y4]
      let mo := digitsToNat [m1, m2]
      let d := digitsToNat [d1, d2]
      let h := digitsToNat [h1, h2]
      let mi := digitsToNat [n1, n2]
      let se := digitsToNat [e1, e2]
      let oh := digitsToNat [o1, o2]
      let om := digitsToNat [o3, o4]
      if 1 ≤ mo ∧ mo ≤ 12 ∧ 1 ≤ d ∧ d ≤ 31 ∧ h ≤ 23 ∧ mi ≤ 59 ∧ se ≤ 59 ∧ oh ≤ 23 ∧ om ≤ 59 then
        let base : Int := ((y * 372 + (mo - 1) * 31 + (d - 1)) * 86400 + h * 3600 + mi * 60 + se : Nat)
        let off : Int := ((oh * 60 + om) * 60 : Nat)
        some (if os == '+' then base - off else base + off)
      else none
    else none
  | _ => none

/-- One traversed node of the export document: a tag and its attribute list,
modelling an ElementTree element as delivered by the iterparse event stream. -/
structure Element where
  tag : String
  attrs : List (String × String)
deriving DecidableEq, Repr

/-- Models ElementTree Element.get: the value of an attribute, or none when the
attribute is absent. -/
def Element.get (e : Element) (k : String) : Option String :=
  (e.attrs.find? (fun kv => kv.1 == k)).map (fun kv => kv.2)

/-- Error taxonomy of one traversal call: the stream cannot be opened, the
document is structurally invalid mid-scan, or pandas raises while converting a
timestamp column; the except-and-reraise path surfaces each to the caller. -/
inductive PErr where
  | sourceUnreadable
  | malformedSource
  | badTimestamp
deriving DecidableEq, Repr

/-- Source stream as the iterparse event loop sees it: a well-formed element
sequence, a sequence cut off by a structural error after a readable prelude, or
a stream that cannot be opened at all. -/
inductive Source where
  | wellFormed (elems : List Element)
  | truncated (pre : List Element)
  | unreadable
deriving DecidableEq, Repr

/-- Outcome of running the iterparse loop over a source: the full element list,
or the in-flight error. Rows a caller accumulated before the error are local to
the aborted call and are no part of the outcome. -/
def readElements : Source → Except PErr (List Element)
  | .wellFormed es => .ok es
  | .truncated _ => .error .malformedSource
  | .unreadable => .error .sourceUnreadable

/-- One DataFrame column after coercion: raw strings (object dtype), parsed
numbers (float64, NaN as none), or timestamps (datetime64, NaT as none). -/
inductive Col where
  | strs (vs : List (Option String))
  | nums (vs : List (Option Rat))
  | times (vs : List (Option Int))
deriving DecidableEq, Repr

/-- DataFrame model: named columns in insertion order plus the row count. -/
structure DF where
  cols : List (String × Col)
  nrows : Nat
deriving DecidableEq, Repr

/-- Models pd.to_datetime over one column with the default raise behaviour:
absent values become NaT, any unparseable string raises. -/
def pdToDatetimeCol (vs : List (Option String)) : Except PErr (List (Option Int)) :=
  vs.mapM (fun v =>
    match v with
    | none => .ok none
    | some s =>
      match parseTimestamp s with
      | some ts => .ok (some ts)
      | none => .error .badTimestamp)

/-- Models the all-parse attempt inside pd.to_numeric with the default raise
behaviour: the parsed column when every present value parses, none as soon as a
single value fails. -/
def tryParseAll (vs : List (Option String)) : Option (List (Option Rat)) :=
  vs.mapM (fun v =>
    match v with
    | none => some none
    | some s => (pyFloat s).map some)

/-- Models the guarded value-column conversion of parse_records_by_type:
pd.to_numeric succeeds and the column becomes float64, or it raises and the
except branch leaves the column as the original strings. -/
def pdToNumericAllOrNothing (vs : List (Option String)) : Col :=
  match tryParseAll vs with
  | some ns => Col.nums ns
  | none => Col.strs vs

/-- Models pd.to_numeric with errors coerce: each value judged independently,
an unparseable value becoming NaN for its row only. -/
def pdToNumericCoerce (vs : List (Option String)) : List (Option Rat) :=
  vs.map (fun v => v.bind pyFloat)

/-- The match test of parse_records_by_type: the element is tagged Record and
its type attribute compares equal to the requested type string. -/
def recordMatches (t : String) (e : Element) : Bool :=
  e.tag == "Record" && e.get "type" == some t

/-- The records list the iterparse loop of parse_records_by_type accumulates:
the matching Record elements in traversal order. -/
def matchingRecords (es : List Element) (t : String) : List Element :=
  es.filter (recordMatches t)

/-- Embedding of HealthDataProcessor.parse_records_by_type: stream the source,
keep the attribute dictionaries of matching Record elements, build a DataFrame
(an empty record list yields a DataFrame with no columns), convert the two date
columns with pd.to_datetime (raising on a malformed stamp), and convert the
value column with the guarded pd.to_numeric. Any raised error propagates
through the logging except branch unchanged. -/
def parse_records_by_type (src : Source) (t : String) : Except PErr DF :=
  match readElements src with
  | .error e => .error e
  | .ok es =>
    if (matchingRecords es t).isEmpty then .ok ⟨[], 0⟩
    else
      match pdToDatetimeCol ((matchingRecords es t).map (fun e => e.get "startDate")) with
      | .error e => .error e
      | .ok sd =>
        match pdToDatetimeCol ((matchingRecords es t).map (fun e => e.get "endDate")) with
        | .error e => .error e
        | .ok ed =>
          .ok ⟨[("startDate", Col.times sd),
                ("endDate", Col.times ed),
                ("value", pdToNumericAllOrNothing ((matchingRecords es t).map (fun e => e.get "value"))),
                ("unit", Col.strs ((matchingRecords es t).map (fun e => e.get "unit"))),
                ("device", Col.strs ((matchingRecords es t).map (fun e => e.get "device"))),
                ("sourceName", Col.strs ((matchingRecords es t).map (fun e => e.get "sourceName")))],
               (matchingRecords es t).length⟩

/-- Lexicographic comparison of character lists by code point, exactly the
comparison Python applies to strings. -/
def charListLe : List Char → List Char → Bool
  | [], _ => true
  | _ :: _, [] => false
  | a :: as, b :: bs =>
    if a.toNat < b.toNat then true
    else if b.toNat < a.toNat then false
    else charListLe as bs

/-- Lexicographic string comparison by code point. -/
def strLe (a b : String) : Bool :=
  charListLe a.data b.data

/-- One insertion step of the sort modelling the Python sorted builtin. -/
def insertSorted (x : String) : List String → List String
  | [] => [x]
  | y :: ys => if strLe x y then x :: y :: ys else y :: insertSorted x ys

/-- Models the Python sorted builtin on a list of strings: the algorithm
differs, the result — the unique le-ordered arrangement of the input — does
not. -/
def sortStrings : List String → List String
  | [] => []
  | x :: xs => insertSorted x (sortStrings xs)

/-- One step of the set accumulation of get_available_record_types: a Record
element whose type attribute is present and truthy (non-empty) contributes its
type to the set; everything else leaves the set alone. The set is kept as the
list of first occurrences: only membership matters since the caller sorts it. -/
def collectTypesStep (acc : List String) (e : Element) : List String :=
  if e.tag == "Record" then
    match e.get "type" with
    | some t => if t != "" && !(acc.contains t) then acc ++ [t] else acc
    | none => acc
  else acc

/-- The set accumulation loop of get_available_record_types over the whole
traversal. -/
def collectTypes (es : List Element) : List String :=
  es.foldl collectTypesStep []

/-- Embedding of HealthDataProcessor.get_available_record_types: stream the
source, accumulate the set of truthy type attributes of Record elements, and
return it sorted. -/
def get_available_record_types (src : Source) : Except PErr (List String) :=
  match readElements src with
  | .error e => .error e
  | .ok es => .ok (sortStrings (collectTypes es))

/-- The match test of process_workouts: the element is tagged Workout. -/
def isWorkout (e : Element) : Bool :=
  e.tag == "Workout"

/-- Embedding of HealthDataProcessor.process_workouts: stream the source, keep
the attribute dictionaries of Workout elements, build a DataFrame (empty list
yields no columns), convert both date columns with pd.to_datetime (raising on a
malformed stamp), and convert duration, totalDistance and totalEnergyBurned
with pd.to_numeric using errors coerce. -/
def process_workouts (src : Source) : Except PErr DF :=
  match readElements src with
  | .error e => .error e
  | .ok es =>
    if (es.filter isWorkout).isEmpty then .ok ⟨[], 0⟩
    else
      match pdToDatetimeCol ((es.filter isWorkout).map (fun e => e.get "startDate")) with
      | .error e => .error e
      | .ok sd =>
        match pdToDatetimeCol ((es.filter isWorkout).map (fun e => e.get "endDate")) with
        | .error e => .error e
        | .ok ed =>
          .ok ⟨[("workoutActivityType", Col.strs ((es.filter isWorkout).map (fun e => e.get "workoutActivityType"))),
                ("duration", Col.nums (pdToNumericCoerce ((es.filter isWorkout).map (fun e => e.get "duration")))),
                ("startDate", Col.times sd),
                ("endDate", Col.times ed),
                ("totalDistance", Col.nums (pdToNumericCoerce ((es.filter isWorkout).map (fun e => e.get "totalDistance")))),
                ("totalEnergyBurned", Col.nums (pdToNumericCoerce ((es.filter isWorkout).map (fun e => e.get "totalEnergyBurned")))),
                ("sourceName", Col.strs ((es.filter isWorkout).map (fun e => e.get "sourceName")))],
               (es.filter isWorkout).length⟩

/-- Decides whether the pattern occurs as a contiguous substring, modelling the
Python membership test on strings used by clean_metric_name. -/
def isSubstrChars (p : List Char) : List Char → Bool
  | [] => p.isEmpty
  | c :: rest => p.isPrefixOf (c :: rest) || isSubstrChars p rest

/-- Fuel-indexed scan of Python str.replace with an empty replacement: drop
every non-overlapping occurrence of the pattern, left to right. The fuel only
provides structural recursion; one unit is spent per character position and the
scan always finishes before running out. -/
def removeAllCharsGo (p : List Char) : Nat → List Char → List Char
  | 0, l => l
  | _ + 1, [] => []
  | fuel + 1, c :: rest =>
    if !p.isEmpty && p.isPrefixOf (c :: rest) then
      removeAllCharsGo p fuel ((c :: rest).drop p.length)
    else
      c :: removeAllCharsGo p fuel rest

/-- Models Python str.replace with an empty replacement. -/
def removeAllChars (p s : List Char) : List Char :=
  removeAllCharsGo p s.length s

/-- String membership test as used by the Python expression in clean_metric_name. -/
def strContains (s p : String) : Bool :=
  isSubstrChars p.data s.data

/-- String replace-with-empty as used by clean_metric_name. -/
def strRemoveAll (s p : String) : String :=
  ⟨removeAllChars p.data s.data⟩

/-- The prefix-to-indicator table of clean_metric_name, in the dictionary
insertion order the for loop iterates in. -/
def hk_type_indicators : List (String × String) :=
  [("HKQuantityTypeIdentifier", "(Quantity)"),
   ("HKCategoryTypeIdentifier", "(Category)"),
   ("HKDataTypeIdentifier", "(Data)")]

/-- Embedding of HealthDataReport.clean_metric_name: the first table entry
whose prefix occurs somewhere in the name has all its occurrences removed and
its indicator appended after a space; no matching entry leaves the name as is. -/
def clean_metric_name (name : String) : String :=
  match hk_type_indicators.find? (fun pi => strContains name pi.1) with
  | some pi => strRemoveAll name pi.1 ++ " " ++ pi.2
  | none => name

/-- The five descriptive statistics of add_dataset_summary. NaN outcomes of the
pandas reductions are modelled as none; the std field carries the sample
variance, standing in for the pandas standard deviation whose exact value is
irrational in general — no consumer in the claims inspects the numbers, only
the presence of the block. -/
structure SampleStats where
  mean : Option Rat
  median : Option Rat
  std : Option Rat
  vmin : Option Rat
  vmax : Option Rat
deriving DecidableEq, Repr

/-- Least present value of a column, modelling a skipna min reduction. -/
def optMinInt (vs : List (Option Int)) : Option Int :=
  (vs.filterMap id).min?

/-- Greatest present value of a column, modelling a skipna max reduction. -/
def optMaxInt (vs : List (Option Int)) : Option Int :=
  (vs.filterMap id).max?

/-- Descriptive statistics of a float64 column, skipping NaN entries the way
the pandas reductions do; std needs at least two present values (ddof 1). -/
def computeStats (vs : List (Option Rat)) : SampleStats :=
  let nn := vs.filterMap id
  let n := nn.length
  let sorted := List.insertionSort (fun a b => a ≤ b) nn
  let mean : Option Rat := if n = 0 then none else some (nn.sum / (n : Rat))
  { mean := mean
  , median :=
      if n = 0 then none
      else if n % 2 = 1 then some (sorted.getD (n / 2) 0)
      else some ((sorted.getD (n / 2 - 1) 0 + sorted.getD (n / 2) 0) / 2)
  , std :=
      if 2 ≤ n then
        some ((nn.map (fun x => (x - nn.sum / (n : Rat)) ^ 2)).sum / ((n : Rat) - 1))
      else none
  , vmin := nn.min?
  , vmax := nn.max? }

/-- The guarded statistics block of add_dataset_summary: with a float64 value
column the five reductions succeed; with an object column of strings the mean
reduction raises and the except branch leaves the block absent; with no value
column the block is never attempted. A datetime value column cannot arise from
the extractors and is treated like the raising case. -/
def sampleStatsOf (df : DF) : Option SampleStats :=
  match df.cols.lookup "value" with
  | some (Col.nums vs) => some (computeStats vs)
  | some _ => none
  | none => none

/-- Observer used to state the statistics invariant: whether an optional column
is an inferred-numeric (float64) column. -/
def isNumsCol : Option Col → Bool
  | some (Col.nums _) => true
  | _ => false

/-- The date_range computation of add_dataset_summary: min and max of the
startDate column when that column exists, the null pair otherwise. -/
def dateRangeOf (df : DF) : Option Int × Option Int :=
  match df.cols.lookup "startDate" with
  | some (Col.times ts) => (optMinInt ts, optMaxInt ts)
  | _ => (none, none)

/-- Rendered dtype of one column, modelling df.dtypes. -/
def colDtype : Col → String
  | Col.strs _ => "object"
  | Col.nums _ => "float64"
  | Col.times _ => "datetime64[ns]"

/-- Embedding of the DatasetSummary dataclass of health_data_report.py. -/
structure DatasetSummary where
  name : String
  record_count : Nat
  date_range : Option Int × Option Int
  file_path : String
  columns : List String
  file_size : Nat
  data_types : List (String × String)
  sample_stats : Option SampleStats
deriving DecidableEq, Repr

/-- The summary value add_dataset_summary constructs for one dataset; the byte
size the Python code reads from the file system is passed in as a parameter. -/
def buildSummary (name : String) (df : DF) (path : String) (fileSize : Nat) : DatasetSummary :=
  { name := clean_metric_name name
  , record_count := df.nrows
  , date_range := dateRangeOf df
  , file_path := path
  , columns := df.cols.map (fun kc => kc.1)
  , file_size := fileSize
  , data_types := df.cols.map (fun kc => (kc.1, colDtype kc.2))
  , sample_stats := sampleStatsOf df }

/-- Embedding of the HealthDataReport accumulator: the datasets dictionary as
an insertion-ordered association list. -/
structure HealthDataReport where
  datasets : List (String × DatasetSummary)
deriving DecidableEq, Repr

/-- Assignment into a Python 3.7 dict: an existing key keeps its position and
receives the new value, a new key is appended at the end. -/
def dictInsert (m : List (String × DatasetSummary)) (k : String) (v : DatasetSummary) :
    List (String × DatasetSummary) :=
  match m with
  | [] => [(k, v)]
  | (k1, v1) :: rest =>
    if k1 == k then (k, v) :: rest
    else (k1, v1) :: dictInsert rest k v

/-- Embedding of HealthDataReport.add_dataset_summary: build the summary and
assign it under the cleaned name. -/
def add_dataset_summary (r : HealthDataReport) (name : String) (df : DF)
    (path : String) (fileSize : Nat) : HealthDataReport :=
  ⟨dictInsert r.datasets (clean_metric_name name) (buildSummary name df path fileSize)⟩

/-- One row of the consolidated report of create_report; the dynamic Value stat
cells are carried as the optional statistics block they are rendered from. -/
structure ReportRow where
  dataset : String
  records : Nat
  startDate : Option Int
  endDate : Option Int
  file : String
  sizeKB : Rat
  columnsJoined : String
  valueStats : Option SampleStats
deriving DecidableEq, Repr

/-- Embedding of HealthDataReport.create_report: one row per dictionary entry
in insertion order (the empty dictionary yields the empty frame, which the map
over the empty list already is). -/
def create_report (r : HealthDataReport) : List ReportRow :=
  r.datasets.map (fun ns =>
    { dataset := ns.1
    , records := ns.2.record_count
    , startDate := ns.2.date_range.1
    , endDate := ns.2.date_range.2
    , file := ns.2.file_path
    , sizeKB := (ns.2.file_size : Rat) / 1024
    , columnsJoined := String.intercalate "; " ns.2.columns
    , valueStats := ns.2.sample_stats })

/-- Embedding of the orchestration step _save_metric_data of
interactive_health_processor.py as far as the report is concerned: a successful
extraction records a summary, a raising extraction is caught and leaves the
report untouched. -/
def saveMetricData (rep : HealthDataReport) (src : Source) (metric : String)
    (path : String) (fileSize : Nat) : HealthDataReport :=
  match parse_records_by_type src metric with
  | .ok df => add_dataset_summary rep metric df path fileSize
  | .error _ => rep

/-- Concrete document for exercising extraction: two Record elements of type X
around a Workout and a Record of another type. -/
def c1es : List Element :=
  [⟨"Record", [("type", "X"), ("value", "1"), ("unit", "u")]⟩,
   ⟨"Workout", [("workoutActivityType", "Run")]⟩,
   ⟨"Record", [("type", "Y"), ("value", "2")]⟩,
   ⟨"Record", [("type", "X"), ("sourceName", "W")]⟩]

/-- The frame extraction of type X from the document above produces. -/
def c1df : DF :=
  ⟨[("startDate", Col.times [none, none]),
    ("endDate", Col.times [none, none]),
    ("value", Col.nums [some 1, none]),
    ("unit", Col.strs [some "u", none]),
    ("device", Col.strs [none, none]),
    ("sourceName", Col.strs [none, some "W"])], 2⟩

/-- Concrete document with a matching Record whose startDate is not a
timestamp at all. -/
def c3es : List Element :=
  [⟨"Record", [("type", "X"), ("startDate", "garbage"), ("value", "1")]⟩]

/-- Concrete document with a matching Record whose startDate has the right
shape but an out-of-range month. -/
def c3wes : List Element :=
  [⟨"Record", [("type", "W"), ("startDate", "2020-99-99 00:00:00 +0000")]⟩]

/-- Concrete document whose single Record carries an empty type attribute. -/
def c4es : List Element :=
  [⟨"Record", [("type", "")]⟩]

/-- Concrete document with duplicate and unsorted type attributes. -/
def c4wes : List Element :=
  [⟨"Record", [("type", "B")]⟩, ⟨"Record", [("type", "A")]⟩, ⟨"Record", [("type", "B")]⟩]

/-- Concrete document of the end-to-end statistics example: three step-count
Records with values 100, 200 and abc. -/
def c5es : List Element :=
  [⟨"Record", [("type", "HKQuantityTypeIdentifierStepCount"), ("value", "100")]⟩,
   ⟨"Record", [("type", "HKQuantityTypeIdentifierStepCount"), ("value", "200")]⟩,
   ⟨"Record", [("type", "HKQuantityTypeIdentifierStepCount"), ("value", "abc")]⟩]

/-- The frame the end-to-end statistics example extracts: the value column
stays an object column of the original strings. -/
def c5df : DF :=
  ⟨[("startDate", Col.times [none, none, none]),
    ("endDate", Col.times [none, none, none]),
    ("value", Col.strs [some "100", some "200", some "abc"]),
    ("unit", Col.strs [none, none, none]),
    ("device", Col.strs [none, none, none]),
    ("sourceName", Col.strs [none, none, none])], 3⟩

/-- Concrete document with two Workout elements, one of which carries an
unparseable duration. -/
def c7es : List Element :=
  [⟨"Workout", [("workoutActivityType", "Run"), ("duration", "30.5"), ("totalDistance", "5.2")]⟩,
   ⟨"Workout", [("workoutActivityType", "Walk"), ("duration", "n/a"), ("totalEnergyBurned", "200")]⟩]

/-- The frame workout extraction produces from the document above: the bad
duration becomes null in its row only. -/
def c7df : DF :=
  ⟨[("workoutActivityType", Col.strs [some "Run", some "Walk"]),
    ("duration", Col.nums [some (mkRat 61 2), none]),
    ("startDate", Col.times [none, none]),
    ("endDate", Col.times [none, none]),
    ("totalDistance", Col.nums [some (mkRat 26 5), none]),
    ("totalEnergyBurned", Col.nums [none, some 200]),
    ("sourceName", Col.strs [none, none])], 2⟩

/-- Concrete document mixing a typed Record, a Record with no type attribute
and a Record with an empty type attribute. -/
def c10es : List Element :=
  [⟨"Record", [("type", "A")]⟩, ⟨"Record", ([] : List (String × String))⟩,
   ⟨"Record", [("type", "")]⟩]

/-- Helper: the all-parse attempt unrolled over one list cell. -/
theorem tryParseAll_cons (v : Option String) (rest : List (Option String)) :
    tryParseAll (v :: rest) =
      (match v with
       | none => some none
       | some s => Option.map some (pyFloat s)) >>= fun x =>
        tryParseAll rest >>= fun xs => pure (x :: xs) :=
  List.mapM_cons _

/-- Helper: the modelled pd.to_datetime conversion unrolled over one list cell. -/
theorem pdToDatetimeCol_cons (v : Option String) (rest : List (Option String)) :
    pdToDatetimeCol (v :: rest) =
      (match v with
       | none => Except.ok none
       | some s =>
         match parseTimestamp s with
         | some ts => Except.ok (some ts)
         | none => Except.error PErr.badTimestamp) >>= fun x =>
        pdToDatetimeCol rest >>= fun xs => pure (x :: xs) :=
  List.mapM_cons _

/-- Helper: bind on an Except error short-circuits. -/
theorem except_error_bind {A B : Type} (e : PErr) (f : A → Except PErr B) :
    (Except.error e >>= f) = Except.error e := rfl

/-- Helper: bind on an Except success applies the continuation. -/
theorem except_ok_bind {A B : Type} (a : A) (f : A → Except PErr B) :
    (Except.ok a >>= f) = f a := rfl

/-- Helper: a single unparseable present value defeats the all-parse attempt of
the guarded pd.to_numeric. -/
theorem tryParseAll_eq_none_of_bad {vs : List (Option String)} {s : String}
    (hmem : some s ∈ vs) (hbad : pyFloat s = none) : tryParseAll vs = none := by
  induction vs with
  | nil => cases hmem
  | cons v rest ih =>
    rw [tryParseAll_cons]
    rcases List.mem_cons.mp hmem with hv | hv
    · subst hv
      simp [hbad]
    · have hrest : tryParseAll rest = none := ih hv
      cases v with
      | none => simp [hrest]
      | some s2 =>
        cases hps : pyFloat s2 with
        | none => simp [hps]
        | some r => simp [hps, hrest]

/-- Helper: when every present value parses, the all-parse attempt of the
guarded pd.to_numeric returns exactly the per-value parses. -/
theorem tryParseAll_eq_of_all_good {vs : List (Option String)}
    (h : ∀ s, some s ∈ vs → pyFloat s ≠ none) :
    tryParseAll vs = some (vs.map (fun v => v.bind pyFloat)) := by
  induction vs with
  | nil => rfl
  | cons v rest ih =>
    have hrest : tryParseAll rest = some (rest.map (fun v => v.bind pyFloat)) :=
      ih (fun s hs => h s (List.mem_cons_of_mem _ hs))
    rw [tryParseAll_cons]
    cases v with
    | none => simp [hrest]
    | some s2 =>
      have hne : pyFloat s2 ≠ none := h s2 (List.mem_cons_self _ _)
      cases hps : pyFloat s2 with
      | none => exact absurd hps hne
      | some r => simp [hrest, hps]

/-- Helper: a single unparseable present timestamp makes the modelled
pd.to_datetime column conversion raise. -/
theorem pdToDatetimeCol_error_of_bad {vs : List (Option String)} {s : String}
    (hmem : some s ∈ vs) (hbad : parseTimestamp s = none) :
    pdToDatetimeCol vs = .error .badTimestamp := by
  induction vs with
  | nil => cases hmem
  | cons v rest ih =>
    rw [pdToDatetimeCol_cons]
    rcases List.mem_cons.mp hmem with hv | hv
    · subst hv
      simp [hbad, except_error_bind]
    · have hrest : pdToDatetimeCol rest = .error .badTimestamp := ih hv
      cases v with
      | none => simp [hrest, except_ok_bind, except_error_bind]
      | some s2 =>
        cases hpt : parseTimestamp s2 with
        | none => simp [hpt, except_error_bind]
        | some ts => simp [hpt, hrest, except_ok_bind, except_error_bind]

/-- Helper: when every present timestamp parses, the modelled pd.to_datetime
column conversion returns the per-value parses, with absent values as NaT. -/
theorem pdToDatetimeCol_ok_of_all_good {vs : List (Option String)}
    (h : ∀ s, some s ∈ vs → parseTimestamp s ≠ none) :
    pdToDatetimeCol vs = .ok (vs.map (fun v => v.bind parseTimestamp)) := by
  induction vs with
  | nil => rfl
  | cons v rest ih =>
    have hrest : pdToDatetimeCol rest = .ok (rest.map (fun v => v.bind parseTimestamp)) :=
      ih (fun s hs => h s (List.mem_cons_of_mem _ hs))
    rw [pdToDatetimeCol_cons]
    cases v with
    | none => simp [hrest, except_ok_bind]
    | some s2 =>
      have hne : parseTimestamp s2 ≠ none := h s2 (List.mem_cons_self _ _)
      cases hpt : parseTimestamp s2 with
      | none => exact absurd hpt hne
      | some ts => simp [hrest, hpt, except_ok_bind]

/-- Helper: a successful extraction call fully determines the resulting frame:
either no element matched and the frame is empty, or the frame carries the six
coerced columns over the matching records in traversal order. -/
theorem parse_ok_inv {es : List Element} {t : String} {df : DF}
    (h : parse_records_by_type (Source.wellFormed es) t = .ok df) :
    (matchingRecords es t = [] ∧ df = ⟨[], 0⟩)
    ∨ (matchingRecords es t ≠ []
       ∧ ∃ sd ed,
         pdToDatetimeCol ((matchingRecords es t).map (fun e => e.get "startDate")) = .ok sd
         ∧ pdToDatetimeCol ((matchingRecords es t).map (fun e => e.get "endDate")) = .ok ed
         ∧ df = ⟨[("startDate", Col.times sd),
                  ("endDate", Col.times ed),
                  ("value", pdToNumericAllOrNothing ((matchingRecords es t).map (fun e => e.get "value"))),
                  ("unit", Col.strs ((matchingRecords es t).map (fun e => e.get "unit"))),
                  ("device", Col.strs ((matchingRecords es t).map (fun e => e.get "device"))),
                  ("sourceName", Col.strs ((matchingRecords es t).map (fun e => e.get "sourceName")))],
                 (matchingRecords es t).length⟩) := by
  unfold parse_records_by_type at h
  simp only [readElements] at h
  by_cases hE : (matchingRecords es t).isEmpty
  · rw [if_pos hE] at h
    injection h with h2
    exact Or.inl ⟨List.isEmpty_iff.mp hE, h2.symm⟩
  · rw [if_neg hE] at h
    refine Or.inr ⟨fun hnil => hE (by simp [hnil]), ?_⟩
    cases hsd : pdToDatetimeCol ((matchingRecords es t).map (fun e => e.get "startDate")) with
    | error e => simp [hsd] at h
    | ok sd =>
      simp only [hsd] at h
      cases hed : pdToDatetimeCol ((matchingRecords es t).map (fun e => e.get "endDate")) with
      | error e => simp [hed] at h
      | ok ed =>
        simp only [hed] at h
        injection h with h2
        exact ⟨sd, ed, rfl, rfl, h2.symm⟩

/-- Helper: a successful workout extraction fully determines the resulting
frame in the same way. -/
theorem workouts_ok_inv {es : List Element} {df : DF}
    (h : process_workouts (Source.wellFormed es) = .ok df) :
    (es.filter isWorkout = [] ∧ df = ⟨[], 0⟩)
    ∨ (es.filter isWorkout ≠ []
       ∧ ∃ sd ed,
         pdToDatetimeCol ((es.filter isWorkout).map (fun e => e.get "startDate")) = .ok sd
         ∧ pdToDatetimeCol ((es.filter isWorkout).map (fun e => e.get "endDate")) = .ok ed
         ∧ df = ⟨[("workoutActivityType", Col.strs ((es.filter isWorkout).map (fun e => e.get "workoutActivityType"))),
                  ("duration", Col.nums (pdToNumericCoerce ((es.filter isWorkout).map (fun e => e.get "duration")))),
                  ("startDate", Col.times sd),
                  ("endDate", Col.times ed),
                  ("totalDistance", Col.nums (pdToNumericCoerce ((es.filter isWorkout).map (fun e => e.get "totalDistance")))),
                  ("totalEnergyBurned", Col.nums (pdToNumericCoerce ((es.filter isWorkout).map (fun e => e.get "totalEnergyBurned")))),
                  ("sourceName", Col.strs ((es.filter isWorkout).map (fun e => e.get "sourceName")))],
                 (es.filter isWorkout).length⟩) := by
  unfold process_workouts at h
  simp only [readElements] at h
  by_cases hE : (es.filter isWorkout).isEmpty
  · rw [if_pos hE] at h
    injection h with h2
    exact Or.inl ⟨List.isEmpty_iff.mp hE, h2.symm⟩
  · rw [if_neg hE] at h
    refine Or.inr ⟨fun hnil => hE (by simp [hnil]), ?_⟩
    cases hsd : pdToDatetimeCol ((es.filter isWorkout).map (fun e => e.get "startDate")) with
    | error e => simp [hsd] at h
    | ok sd =>
      simp only [hsd] at h
      cases hed : pdToDatetimeCol ((es.filter isWorkout).map (fun e => e.get "endDate")) with
      | error e => simp [hed] at h
      | ok ed =>
        simp only [hed] at h
        injection h with h2
        exact ⟨sd, ed, rfl, rfl, h2.symm⟩

/-- Helper: dictionary assignment keeps the key sequence unchanged when the key
is already present and appends the key otherwise. -/
theorem dictInsert_keys (m : List (String × DatasetSummary)) (k : String) (v : DatasetSummary) :
    (dictInsert m k v).map Prod.fst =
      if (m.map Prod.fst).contains k then m.map Prod.fst
      else m.map Prod.fst ++ [k] := by
  induction m with
  | nil => simp [dictInsert]
  | cons kv rest ih =>
    obtain ⟨k1, v1⟩ := kv
    by_cases hk : k1 = k
    · subst hk
      simp [dictInsert, List.contains_cons]
    · have h1 : (k1 == k) = false := beq_eq_false_iff_ne.mpr hk
      have h2 : (k == k1) = false := beq_eq_false_iff_ne.mpr (Ne.symm hk)
      have hstep : dictInsert ((k1, v1) :: rest) k v = (k1, v1) :: dictInsert rest k v := by
        simp [dictInsert, h1]
      rw [hstep, List.map_cons, ih, List.map_cons, List.contains_cons, h2, Bool.false_or]
      by_cases hc : (rest.map Prod.fst).contains k = true
      · rw [if_pos hc, if_pos hc]
      · rw [if_neg hc, if_neg hc, List.cons_append]

/-- Helper: lookup after dictionary assignment sees the new value exactly at
the assigned key and is untouched at every other key. -/
theorem dictInsert_lookup (m : List (String × DatasetSummary)) (k k2 : String) (v : DatasetSummary) :
    (dictInsert m k v).lookup k2 = if k2 == k then some v else m.lookup k2 := by
  induction m with
  | nil =>
    by_cases h : k2 = k
    · subst h; simp [dictInsert, List.lookup_cons]
    · simp [dictInsert, List.lookup_cons, beq_eq_false_iff_ne.mpr h]
  | cons kv rest ih =>
    obtain ⟨k1, v1⟩ := kv
    by_cases hk : k1 = k
    · subst hk
      by_cases h2 : k2 = k1
      · subst h2; simp [dictInsert, List.lookup_cons]
      · simp [dictInsert, List.lookup_cons, beq_eq_false_iff_ne.mpr h2]
    · have h1 : (k1 == k) = false := beq_eq_false_iff_ne.mpr hk
      by_cases h2 : k2 = k1
      · subst h2
        have h3 : (k2 == k) = false := beq_eq_false_iff_ne.mpr hk
        simp [dictInsert, h1, List.lookup_cons, h3]
      · simp [dictInsert, h1, List.lookup_cons, beq_eq_false_iff_ne.mpr h2, ih]

/-- Helper: the accumulation step on a Record element with a present type
attribute reduces to the guarded append. -/
theorem collectTypesStep_record_some (acc : List String) (e : Element) (t : String)
    (htag : (e.tag == "Record") = true) (hg : e.get "type" = some t) :
    collectTypesStep acc e =
      if (t != "" && !acc.contains t) = true then acc ++ [t] else acc := by
  unfold collectTypesStep
  rw [if_pos htag, hg]

/-- Helper: the accumulation step ignores a Record element with no type
attribute. -/
theorem collectTypesStep_record_none (acc : List String) (e : Element)
    (htag : (e.tag == "Record") = true) (hg : e.get "type" = none) :
    collectTypesStep acc e = acc := by
  unfold collectTypesStep
  rw [if_pos htag, hg]

/-- Helper: the accumulation step ignores every element not tagged Record. -/
theorem collectTypesStep_not_record (acc : List String) (e : Element)
    (htag : (e.tag == "Record") = false) :
    collectTypesStep acc e = acc := by
  unfold collectTypesStep
  rw [if_neg (by simp [htag])]

/-- Helper: membership after one accumulation step — the step contributes the
element's type exactly when the element is a Record with a non-empty type. -/
theorem mem_collectTypesStep (acc : List String) (e : Element) (x : String) :
    x ∈ collectTypesStep acc e ↔
      x ∈ acc ∨ (x ≠ "" ∧ e.tag = "Record" ∧ e.get "type" = some x) := by
  by_cases ht : (e.tag == "Record") = true
  · have htag : e.tag = "Record" := beq_iff_eq.mp ht
    cases hg : e.get "type" with
    | none =>
      rw [collectTypesStep_record_none acc e ht hg]
      simp [htag, hg]
    | some t =>
      rw [collectTypesStep_record_some acc e t ht hg]
      by_cases hcond : (t != "" && !acc.contains t) = true
      · rw [if_pos hcond]
        have ht1 : t ≠ "" := by
          have := (Bool.and_eq_true _ _).mp hcond |>.1
          simpa [bne] using this
        simp only [List.mem_append, List.mem_singleton, htag, hg, Option.some_inj]
        constructor
        · rintro (hx | hx)
          · exact Or.inl hx
          · exact Or.inr ⟨hx ▸ ht1, trivial, hx.symm⟩
        · rintro (hx | ⟨hx1, hx2, hx3⟩)
          · exact Or.inl hx
          · exact Or.inr hx3.symm
      · rw [if_neg hcond]
        have hcond2 : t = "" ∨ acc.contains t = true := by
          rcases Bool.and_eq_false_iff.mp (Bool.eq_false_iff.mpr hcond) with hc | hc
          · left
            by_contra hne
            exact absurd hc (by simp [bne, beq_eq_false_iff_ne.mpr hne])
          · right
            cases hcc : acc.contains t
            · exact absurd hcc (by simp_all)
            · rfl
        simp only [htag, hg, Option.some_inj]
        constructor
        · exact fun hx => Or.inl hx
        · rintro (hx | ⟨hx1, hx2, hx3⟩)
          · exact hx
          · subst hx3
            rcases hcond2 with hc | hc
            · exact absurd hc hx1
            · exact List.elem_iff.mp hc
  · have htag : e.tag ≠ "Record" := by
      intro hh
      exact ht (beq_iff_eq.mpr hh)
    rw [collectTypesStep_not_record acc e (Bool.eq_false_iff.mpr ht)]
    simp [htag]

/-- Helper: membership in the whole accumulation loop, for any starting set. -/
theorem mem_collectTypes_go (es : List Element) :
    ∀ (acc : List String) (x : String),
      x ∈ es.foldl collectTypesStep acc ↔
        x ∈ acc ∨ (x ≠ "" ∧ ∃ e, e ∈ es ∧ e.tag = "Record" ∧ e.get "type" = some x) := by
  induction es with
  | nil => intro acc x; simp
  | cons e rest ih =>
    intro acc x
    rw [List.foldl_cons, ih, mem_collectTypesStep]
    constructor
    · rintro ((hx | ⟨h1, h2, h3⟩) | ⟨h1, e2, h2, h3, h4⟩)
      · exact Or.inl hx
      · exact Or.inr ⟨h1, e, List.mem_cons_self _ _, h2, h3⟩
      · exact Or.inr ⟨h1, e2, List.mem_cons_of_mem _ h2, h3, h4⟩
    · rintro (hx | ⟨h1, e2, h2, h3, h4⟩)
      · exact Or.inl (Or.inl hx)
      · rcases List.mem_cons.mp h2 with h5 | h5
        · exact Or.inl (Or.inr ⟨h1, h5 ▸ h3, h5 ▸ h4⟩)
        · exact Or.inr ⟨h1, e2, h5, h3, h4⟩

/-- Helper: the collected type set holds exactly the non-empty type attributes
of Record elements. -/
theorem mem_collectTypes (es : List Element) (x : String) :
    x ∈ collectTypes es ↔
      x ≠ "" ∧ ∃ e, e ∈ es ∧ e.tag = "Record" ∧ e.get "type" = some x := by
  have h := mem_collectTypes_go es [] x
  simpa [collectTypes] using h

/-- Helper: one accumulation step preserves distinctness of the set. -/
theorem nodup_collectTypesStep (acc : List String) (e : Element) (h : acc.Nodup) :
    (collectTypesStep acc e).Nodup := by
  by_cases ht : (e.tag == "Record") = true
  · cases hg : e.get "type" with
    | none => rw [collectTypesStep_record_none acc e ht hg]; exact h
    | some t =>
      rw [collectTypesStep_record_some acc e t ht hg]
      by_cases hcond : (t != "" && !acc.contains t) = true
      · rw [if_pos hcond]
        have hand := (Bool.and_eq_true _ _).mp hcond
        have hnm : t ∉ acc := by simpa using hand.2
        simp [List.nodup_append, h, hnm, List.disjoint_singleton]
      · rw [if_neg hcond]; exact h
  · rw [collectTypesStep_not_record acc e (Bool.eq_false_iff.mpr ht)]; exact h

/-- Helper: the collected type set is duplicate-free. -/
theorem nodup_collectTypes (es : List Element) : (collectTypes es).Nodup := by
  have haux : ∀ (acc : List String), acc.Nodup → (es.foldl collectTypesStep acc).Nodup := by
    induction es with
    | nil => intro acc h; simpa using h
    | cons e rest ih =>
      intro acc h
      rw [List.foldl_cons]
      exact ih _ (nodup_collectTypesStep acc e h)
  exact haux [] List.nodup_nil

/-- Helper: a name in which no prefix of the indicator table occurs is returned
unchanged by the cleaning function. -/
theorem clean_metric_name_of_no_indicator {x : String}
    (h : ∀ pi, pi ∈ hk_type_indicators → strContains x pi.1 = false) :
    clean_metric_name x = x := by
  unfold clean_metric_name
  rw [List.find?_eq_none.mpr (fun pi hpi => by simp [h pi hpi])]

/-- Helper: the code-point comparison is total. -/
theorem charListLe_total : ∀ (a b : List Char), charListLe a b = true ∨ charListLe b a = true := by
  intro a
  induction a with
  | nil => intro b; left; rfl
  | cons x xs ih =>
    intro b
    cases b with
    | nil => right; rfl
    | cons y ys =>
      by_cases h1 : x.toNat < y.toNat
      · left; simp [charListLe, h1]
      · by_cases h2 : y.toNat < x.toNat
        · right; simp [charListLe, h2]
        · rcases ih ys with h | h
          · left; simp [charListLe, h1, h2, h]
          · right; simp [charListLe, h1, h2, h]

/-- Helper: the code-point comparison is transitive. -/
theorem charListLe_trans :
    ∀ (a b c : List Char), charListLe a b = true → charListLe b c = true →
      charListLe a c = true := by
  intro a
  induction a with
  | nil => intro b c _ _; rfl
  | cons x xs ih =>
    intro b c hab hbc
    cases b with
    | nil => simp [charListLe] at hab
    | cons y ys =>
      cases c with
      | nil => simp [charListLe] at hbc
      | cons z zs =>
        by_cases hxy : x.toNat < y.toNat
        · by_cases hyz : y.toNat < z.toNat
          · have hv : x.toNat < z.toNat := Nat.lt_trans hxy hyz
            simp [charListLe, hv]
          · by_cases hzy : z.toNat < y.toNat
            · simp [charListLe, hyz, hzy] at hbc
            · have hv : x.toNat < z.toNat := by omega
              simp [charListLe, hv]
        · by_cases hyx : y.toNat < x.toNat
          · simp [charListLe, hxy, hyx] at hab
          · have hab2 : charListLe xs ys = true := by
              simpa [charListLe, hxy, hyx] using hab
            by_cases hyz : y.toNat < z.toNat
            · have hv : x.toNat < z.toNat := by omega
              simp [charListLe, hv]
            · by_cases hzy : z.toNat < y.toNat
              · simp [charListLe, hyz, hzy] at hbc
              · have hbc2 : charListLe ys zs = true := by
                  simpa [charListLe, hyz, hzy] using hbc
                have hxz : ¬ x.toNat < z.toNat := by omega
                have hzx : ¬ z.toNat < x.toNat := by omega
                simp [charListLe, hxz, hzx, ih ys zs hab2 hbc2]

/-- Helper: string comparison is total. -/
theorem strLe_total (a b : String) : strLe a b = true ∨ strLe b a = true :=
  charListLe_total a.data b.data

/-- Helper: string comparison is transitive. -/
theorem strLe_trans {a b c : String} (hab : strLe a b = true) (hbc : strLe b c = true) :
    strLe a c = true :=
  charListLe_trans a.data b.data c.data hab hbc

/-- Helper: one insertion step is a permutation of pushing on the front. -/
theorem perm_insertSorted (x : String) (l : List String) :
    (insertSorted x l).Perm (x :: l) := by
  induction l with
  | nil => exact List.Perm.refl _
  | cons y ys ih =>
    unfold insertSorted
    by_cases h : strLe x y = true
    · rw [if_pos h]
    · rw [if_neg h]
      exact (ih.cons y).trans (List.Perm.swap x y ys)

/-- Helper: the modelled sorted builtin permutes its input. -/
theorem perm_sortStrings (l : List String) : (sortStrings l).Perm l := by
  induction l with
  | nil => exact List.Perm.refl _
  | cons x xs ih =>
    exact (perm_insertSorted x (sortStrings xs)).trans (ih.cons x)

/-- Helper: one insertion step preserves le-ordering. -/
theorem pairwise_insertSorted (x : String) (l : List String)
    (h : l.Pairwise (fun a b => strLe a b = true)) :
    (insertSorted x l).Pairwise (fun a b => strLe a b = true) := by
  induction l with
  | nil => simp [insertSorted]
  | cons y ys ih =>
    unfold insertSorted
    by_cases hxy : strLe x y = true
    · rw [if_pos hxy]
      refine List.Pairwise.cons ?_ h
      intro z hz
      rcases List.mem_cons.mp hz with rfl | hz2
      · exact hxy
      · exact strLe_trans hxy (List.rel_of_pairwise_cons h hz2)
    · rw [if_neg hxy]
      have hyx : strLe y x = true := by
        rcases strLe_total x y with h1 | h1
        · exact absurd h1 hxy
        · exact h1
      refine List.Pairwise.cons ?_ (ih (List.Pairwise.of_cons h))
      intro z hz
      have hz2 : z ∈ x :: ys := (perm_insertSorted x ys).mem_iff.mp hz
      rcases List.mem_cons.mp hz2 with rfl | hz3
      · exact hyx
      · exact List.rel_of_pairwise_cons h hz3

/-- Helper: the modelled sorted builtin produces an le-ordered list. -/
theorem pairwise_sortStrings (l : List String) :
    (sortStrings l).Pairwise (fun a b => strLe a b = true) := by
  induction l with
  | nil => simp [sortStrings]
  | cons x xs ih => exact pairwise_insertSorted x (sortStrings xs) ih

/-- Helper: the Dataset cells of the consolidated report are exactly the keys
of the datasets dictionary, in order. -/
theorem create_report_datasets (r : HealthDataReport) :
    (create_report r).map (fun row => row.dataset) = r.datasets.map Prod.fst := by
  unfold create_report
  rw [List.map_map]
  rfl

/-- C8: a traversal that fails mid-scan (structurally invalid document or
unreadable stream) aborts only the in-flight extraction or catalog call with a
typed error; the rows or type identifiers accumulated inside that call are
never returned, and the consolidated report the orchestrator holds is left
unchanged. -/
theorem C8_failure_isolation (pre : List Element) (t metric path : String)
    (sz : Nat) (rep : HealthDataReport) :
    parse_records_by_type (Source.truncated pre) t = .error .malformedSource
    ∧ get_available_record_types (Source.truncated pre) = .error .malformedSource
    ∧ process_workouts (Source.truncated pre) = .error .malformedSource
    ∧ parse_records_by_type Source.unreadable t = .error .sourceUnreadable
    ∧ get_available_record_types Source.unreadable = .error .sourceUnreadable
    ∧ process_workouts Source.unreadable = .error .sourceUnreadable
    ∧ saveMetricData rep (Source.truncated pre) metric path sz = rep
    ∧ saveMetricData rep Source.unreadable metric path sz = rep :=
  ⟨rfl, rfl, rfl, rfl, rfl, rfl, rfl, rfl⟩

/-- C9: the consolidated report is an insertion-ordered mapping keyed by the
cleaned dataset name: recording under a fresh cleaned name appends its row at
the end, recording under an existing cleaned name overwrites that entry with
the new summary while keeping its original position, and the entries under all
other keys are untouched. -/
theorem C9_report_order (rep : HealthDataReport) (name : String) (df : DF)
    (path : String) (sz : Nat) :
    ((create_report (add_dataset_summary rep name df path sz)).map (fun row => row.dataset)
      = if (rep.datasets.map Prod.fst).contains (clean_metric_name name)
        then (create_report rep).map (fun row => row.dataset)
        else (create_report rep).map (fun row => row.dataset) ++ [clean_metric_name name])
    ∧ (∀ k : String, (add_dataset_summary rep name df path sz).datasets.lookup k
          = if k == clean_metric_name name
            then some (buildSummary name df path sz)
            else rep.datasets.lookup k) := by
  constructor
  · simp only [create_report_datasets]
    exact dictInsert_keys rep.datasets (clean_metric_name name) (buildSummary name df path sz)
  · intro k
    exact dictInsert_lookup rep.datasets (clean_metric_name name) k (buildSummary name df path sz)

/-- C2: numeric coercion of an extracted value column is all-or-nothing: when
every present raw value parses as a number the column becomes the parsed
numbers, and when any single value fails to parse the entire column is left as
the original strings; in particular the column 1.0, 2.5, x stays string-typed
while 1.0, 2.5, 3.0 becomes the numbers 1, 2.5, 3. -/
theorem C2_value_coercion_all_or_nothing :
    (∀ vs : List (Option String),
        ((∀ s, some s ∈ vs → pyFloat s ≠ none) →
          pdToNumericAllOrNothing vs = Col.nums (vs.map (fun v => v.bind pyFloat)))
        ∧ (∀ s, some s ∈ vs → pyFloat s = none →
          pdToNumericAllOrNothing vs = Col.strs vs))
    ∧ pdToNumericAllOrNothing [some "1.0", some "2.5", some "x"]
        = Col.strs [some "1.0", some "2.5", some "x"]
    ∧ pdToNumericAllOrNothing [some "1.0", some "2.5", some "3.0"]
        = Col.nums [some 1, some (mkRat 5 2), some 3] := by
  refine ⟨fun vs => ⟨fun h => ?_, fun s hs hbad => ?_⟩, ?_, ?_⟩
  · unfold pdToNumericAllOrNothing
    rw [tryParseAll_eq_of_all_good h]
  · unfold pdToNumericAllOrNothing
    rw [tryParseAll_eq_none_of_bad hs hbad]
  · rfl
  · rfl

/-- Witness for C2 at the concrete one-cell column containing 4. -/
theorem C2_witness : pdToNumericAllOrNothing [some "4"] = Col.nums [some 4] := by
  have h := (C2_value_coercion_all_or_nothing.1 [some "4"]).1
    (by intro s hs; simp at hs; subst hs; decide)
  exact h.trans (by decide)

/-- Helper: the matching-record count equals an independent count over the
document of Record elements whose type attribute equals the target. -/
theorem countP_matching (es : List Element) (t : String) :
    es.countP (fun e => e.tag == "Record" && e.get "type" == some t)
      = (matchingRecords es t).length := by
  rw [List.countP_eq_length_filter]
  rfl

/-- C1: for every source document and target type, extraction returns exactly
one row per Record element whose type attribute equals the target, in traversal
order, and no other rows; the row count equals an independent count of matching
elements, and Workout elements are never included. -/
theorem C1_rows_exact {es : List Element} {t : String} {df : DF}
    (h : parse_records_by_type (Source.wellFormed es) t = .ok df) :
    df.nrows = es.countP (fun e => e.tag == "Record" && e.get "type" == some t)
    ∧ df.cols.lookup "sourceName"
        = (if matchingRecords es t = [] then none
           else some (Col.strs ((matchingRecords es t).map (fun e => e.get "sourceName"))))
    ∧ df.cols.lookup "unit"
        = (if matchingRecords es t = [] then none
           else some (Col.strs ((matchingRecords es t).map (fun e => e.get "unit"))))
    ∧ df.cols.lookup "device"
        = (if matchingRecords es t = [] then none
           else some (Col.strs ((matchingRecords es t).map (fun e => e.get "device"))))
    ∧ df.cols.lookup "value"
        = (if matchingRecords es t = [] then none
           else some (pdToNumericAllOrNothing ((matchingRecords es t).map (fun e => e.get "value"))))
    ∧ ∀ e, e ∈ es → e.tag = "Workout" → e ∉ matchingRecords es t := by
  have hwk : ∀ e, e ∈ es → e.tag = "Workout" → e ∉ matchingRecords es t := by
    intro e _ hw hmem
    have hm := (List.mem_filter.mp hmem).2
    unfold recordMatches at hm
    rw [hw] at hm
    simp at hm
  rcases parse_ok_inv h with ⟨hnil, hdf⟩ | ⟨hne, sd, ed, hsd, hed, hdf⟩
  · subst hdf
    refine ⟨?_, ?_, ?_, ?_, ?_, hwk⟩
    · rw [countP_matching, hnil]; rfl
    · rw [if_pos hnil]; rfl
    · rw [if_pos hnil]; rfl
    · rw [if_pos hnil]; rfl
    · rw [if_pos hnil]; rfl
  · subst hdf
    refine ⟨?_, ?_, ?_, ?_, ?_, hwk⟩
    · rw [countP_matching]
    · rw [if_neg hne]; rfl
    · rw [if_neg hne]; rfl
    · rw [if_neg hne]; rfl
    · rw [if_neg hne]; rfl

/-- Witness for C1 at a concrete document with two matching Records, one
Record of another type and one Workout. -/
theorem C1_witness :
    c1df.nrows = c1es.countP (fun e => e.tag == "Record" && e.get "type" == some "X")
    ∧ c1df.cols.lookup "sourceName"
        = (if matchingRecords c1es "X" = [] then none
           else some (Col.strs ((matchingRecords c1es "X").map (fun e => e.get "sourceName")))) :=
  ⟨(@C1_rows_exact c1es "X" c1df rfl).1, (@C1_rows_exact c1es "X" c1df rfl).2.1⟩

/-- C10: Record elements whose type attribute is absent or empty are invisible
at the public interface: the catalog never lists the empty string (a missing
attribute is not representable in its string output at all), and an element
with no type attribute never matches any requested type. -/
theorem C10_invisible_empty_types {es : List Element} {l : List String}
    (h : get_available_record_types (Source.wellFormed es) = .ok l) :
    "" ∉ l ∧ ∀ (e : Element) (t : String), e.get "type" = none → recordMatches t e = false := by
  constructor
  · have hl : l = sortStrings (collectTypes es) := by
      unfold get_available_record_types at h
      simp only [readElements] at h
      injection h with h2
      exact h2.symm
    subst hl
    intro hmem
    have hc : "" ∈ collectTypes es := ((perm_sortStrings _).mem_iff).mp hmem
    exact ((mem_collectTypes es "").mp hc).1 rfl
  · intro e t hg
    unfold recordMatches
    rw [hg]
    simp

/-- Witness for C10 at a concrete document with a typed Record, an untyped
Record and an empty-typed Record. -/
theorem C10_witness : "" ∉ (["A"] : List String) :=
  (@C10_invisible_empty_types c10es ["A"] rfl).1

/-- Counterexample for C4: the document whose single Record carries an empty
type attribute has the empty string among its type attributes, yet the catalog
returns the empty list, so the catalog does not equal the set of distinct type
attributes appearing on Record elements. -/
theorem C4_counterexample :
    get_available_record_types (Source.wellFormed c4es) = Except.ok []
    ∧ (⟨"Record", [("type", "")]⟩ : Element).get "type" = some ""
    ∧ (⟨"Record", [("type", "")]⟩ : Element) ∈ c4es :=
  ⟨rfl, rfl, List.mem_singleton.mpr rfl⟩

/-- C4 (amended): the catalog returns exactly the distinct non-empty type
attributes appearing on Record elements — absent and empty type attributes are
skipped — sorted lexicographically with no duplicates; Workout elements
contribute nothing. -/
theorem C4_types_sorted_distinct_nonempty {es : List Element} {l : List String}
    (h : get_available_record_types (Source.wellFormed es) = .ok l) :
    List.Pairwise (fun a b => strLe a b = true) l
    ∧ l.Nodup
    ∧ ∀ x : String, x ∈ l ↔ (x ≠ "" ∧ ∃ e, e ∈ es ∧ e.tag = "Record" ∧ e.get "type" = some x) := by
  have hl : l = sortStrings (collectTypes es) := by
    unfold get_available_record_types at h
    simp only [readElements] at h
    injection h with h2
    exact h2.symm
  subst hl
  refine ⟨pairwise_sortStrings _, ?_, ?_⟩
  · exact ((perm_sortStrings _).nodup_iff).mpr (nodup_collectTypes es)
  · intro x
    rw [(perm_sortStrings _).mem_iff]
    exact mem_collectTypes es x

/-- Witness for C4 at a concrete document with duplicate, unsorted types. -/
theorem C4_witness :
    List.Pairwise (fun a b => strLe a b = true) ["A", "B"] ∧ (["A", "B"] : List String).Nodup :=
  ⟨(@C4_types_sorted_distinct_nonempty c4wes ["A", "B"] rfl).1,
   (@C4_types_sorted_distinct_nonempty c4wes ["A", "B"] rfl).2.1⟩

/-- Counterexample for C6: name cleaning is not idempotent in general — on a
name holding both the Category and the Quantity prefix the first cleaning
removes only the Quantity prefix, and cleaning the result removes the Category
prefix and appends a second indicator. -/
theorem C6_counterexample :
    clean_metric_name (clean_metric_name "HKCategoryTypeIdentifierHKQuantityTypeIdentifier")
      ≠ clean_metric_name "HKCategoryTypeIdentifierHKQuantityTypeIdentifier" := by
  decide

/-- C6 (amended): name cleaning is idempotent on every name whose cleaned form
contains none of the three type-identifier prefix markers — in particular on
every standard identifier, where the single prefix occurrence is removed by the
first cleaning; and cleaning HKQuantityTypeIdentifierStepCount yields exactly
StepCount (Quantity). -/
theorem C6_clean_idempotent_when_prefix_gone :
    (∀ x : String,
        (hk_type_indicators.all (fun pi => !(strContains (clean_metric_name x) pi.1))) = true →
        clean_metric_name (clean_metric_name x) = clean_metric_name x)
    ∧ clean_metric_name "HKQuantityTypeIdentifierStepCount" = "StepCount (Quantity)" := by
  constructor
  · intro x hx
    apply clean_metric_name_of_no_indicator
    intro pi hpi
    have h2 := List.all_eq_true.mp hx pi hpi
    simpa using h2
  · decide

/-- Witness for C6 at a name the cleaning function leaves alone. -/
theorem C6_witness :
    clean_metric_name (clean_metric_name "Workouts") = clean_metric_name "Workouts" :=
  C6_clean_idempotent_when_prefix_gone.1 "Workouts" (by decide)

/-- Counterexample for C3: extraction of a document containing a matching
Record whose startDate is malformed does not succeed with a null-timestamp row
— the modelled pd.to_datetime raises and the whole call fails. -/
theorem C3_counterexample :
    parse_records_by_type (Source.wellFormed c3es) "X" = Except.error PErr.badTimestamp := rfl

/-- C3 (amended): timestamp coercion raises on malformed input: when any
matching Record carries an unparseable startDate — or when every startDate
parses and any endDate is unparseable — the extraction call fails with the
timestamp error instead of yielding a row with a null timestamp; an absent
startDate or endDate attribute, by contrast, coerces to null (NaT) and the
extraction succeeds. -/
theorem C3_timestamp_error_propagates :
    (∀ (es : List Element) (t : String),
        ((matchingRecords es t).any (fun e =>
            match e.get "startDate" with
            | some s => (parseTimestamp s).isNone
            | none => false)) = true →
        parse_records_by_type (Source.wellFormed es) t = .error .badTimestamp)
    ∧ (∀ (es : List Element) (t : String),
        (∀ e, e ∈ matchingRecords es t → ∀ s, e.get "startDate" = some s → parseTimestamp s ≠ none) →
        ((matchingRecords es t).any (fun e =>
            match e.get "endDate" with
            | some s => (parseTimestamp s).isNone
            | none => false)) = true →
        parse_records_by_type (Source.wellFormed es) t = .error .badTimestamp)
    ∧ parse_records_by_type (Source.wellFormed [⟨"Record", [("type", "X"), ("value", "1")]⟩]) "X"
        = .ok ⟨[("startDate", Col.times [none]),
               ("endDate", Col.times [none]),
               ("value", Col.nums [some 1]),
               ("unit", Col.strs [none]),
               ("device", Col.strs [none]),
               ("sourceName", Col.strs [none])], 1⟩ := by
  refine ⟨?_, ?_, rfl⟩
  · intro es t hany
    rcases List.any_eq_true.mp hany with ⟨e, he, hbad⟩
    obtain ⟨s, hg, hps⟩ : ∃ s, e.get "startDate" = some s ∧ parseTimestamp s = none := by
      cases hgs : e.get "startDate" with
      | none => rw [hgs] at hbad; cases hbad
      | some s => rw [hgs] at hbad; exact ⟨s, rfl, Option.isNone_iff_eq_none.mp hbad⟩
    have hmem : some s ∈ (matchingRecords es t).map (fun e => e.get "startDate") :=
      List.mem_map.mpr ⟨e, he, hg⟩
    have herr := pdToDatetimeCol_error_of_bad hmem hps
    have hne : ¬((matchingRecords es t).isEmpty = true) := by
      rw [List.isEmpty_iff]
      intro hnil
      rw [hnil] at he
      cases he
    unfold parse_records_by_type
    simp only [readElements]
    rw [if_neg hne, herr]
  · intro es t hgood hany
    rcases List.any_eq_true.mp hany with ⟨e, he, hbad⟩
    obtain ⟨s, hg, hps⟩ : ∃ s, e.get "endDate" = some s ∧ parseTimestamp s = none := by
      cases hgs : e.get "endDate" with
      | none => rw [hgs] at hbad; cases hbad
      | some s => rw [hgs] at hbad; exact ⟨s, rfl, Option.isNone_iff_eq_none.mp hbad⟩
    have hok : pdToDatetimeCol ((matchingRecords es t).map (fun e => e.get "startDate"))
        = .ok (((matchingRecords es t).map (fun e => e.get "startDate")).map
            (fun v => v.bind parseTimestamp)) := by
      apply pdToDatetimeCol_ok_of_all_good
      intro s2 hs2
      rcases List.mem_map.mp hs2 with ⟨e2, he2, hge2⟩
      exact hgood e2 he2 s2 hge2
    have hmem : some s ∈ (matchingRecords es t).map (fun e => e.get "endDate") :=
      List.mem_map.mpr ⟨e, he, hg⟩
    have herr := pdToDatetimeCol_error_of_bad hmem hps
    have hne : ¬((matchingRecords es t).isEmpty = true) := by
      rw [List.isEmpty_iff]
      intro hnil
      rw [hnil] at he
      cases he
    unfold parse_records_by_type
    simp only [readElements]
    rw [if_neg hne, hok, herr]

/-- Witness for C3 at a concrete document whose startDate has an out-of-range
month. -/
theorem C3_witness :
    parse_records_by_type (Source.wellFormed c3wes) "W" = Except.error PErr.badTimestamp :=
  C3_timestamp_error_propagates.1 c3wes "W" (by decide)

/-- C5: a recorded dataset carries sample statistics exactly when its value
column exists with inferred numeric type and the dataset has at least one row
— for frames produced by either extractor; in particular a dataset whose value
column failed all-or-nothing numeric coercion carries no statistics block. -/
theorem C5_stats_iff_numeric_nonempty :
    (∀ (es : List Element) (t : String) (df : DF),
        parse_records_by_type (Source.wellFormed es) t = .ok df →
        ∀ (name path : String) (sz : Nat),
          ((buildSummary name df path sz).sample_stats ≠ none
            ↔ (isNumsCol (df.cols.lookup "value") = true ∧ 1 ≤ df.nrows)))
    ∧ (∀ (es : List Element) (df : DF),
        process_workouts (Source.wellFormed es) = .ok df →
        ∀ (name path : String) (sz : Nat),
          ((buildSummary name df path sz).sample_stats ≠ none
            ↔ (isNumsCol (df.cols.lookup "value") = true ∧ 1 ≤ df.nrows))) := by
  constructor
  · intro es t df h name path sz
    rcases parse_ok_inv h with ⟨hnil, hdf⟩ | ⟨hne, sd, ed, hsd, hed, hdf⟩
    · subst hdf
      simp [buildSummary, sampleStatsOf, isNumsCol, List.lookup]
    · subst hdf
      have hlen : 1 ≤ (matchingRecords es t).length := List.length_pos.mpr hne
      cases htp : tryParseAll ((matchingRecords es t).map (fun e => e.get "value")) with
      | some ns =>
        have hpd : pdToNumericAllOrNothing ((matchingRecords es t).map (fun e => e.get "value"))
            = Col.nums ns := by
          unfold pdToNumericAllOrNothing
          rw [htp]
        simp [buildSummary, sampleStatsOf, isNumsCol, hpd, List.lookup_cons, hlen]
      | none =>
        have hpd : pdToNumericAllOrNothing ((matchingRecords es t).map (fun e => e.get "value"))
            = Col.strs ((matchingRecords es t).map (fun e => e.get "value")) := by
          unfold pdToNumericAllOrNothing
          rw [htp]
        simp [buildSummary, sampleStatsOf, isNumsCol, hpd, List.lookup_cons]
  · intro es df h name path sz
    rcases workouts_ok_inv h with ⟨hnil, hdf⟩ | ⟨hne, sd, ed, hsd, hed, hdf⟩
    · subst hdf
      simp [buildSummary, sampleStatsOf, isNumsCol, List.lookup]
    · subst hdf
      simp [buildSummary, sampleStatsOf, isNumsCol, List.lookup_cons]

/-- Witness for C5 at the end-to-end example: three step-count Records with
values 100, 200 and abc extract to three rows with a string value column, and
the recorded summary carries no statistics. -/
theorem C5_witness :
    (buildSummary "HKQuantityTypeIdentifierStepCount" c5df "StepCount.csv" 1024).sample_stats
      = none := by
  have h := C5_stats_iff_numeric_nonempty.1 c5es "HKQuantityTypeIdentifierStepCount" c5df rfl
      "HKQuantityTypeIdentifierStepCount" "StepCount.csv" 1024
  by_contra hc
  have h2 := h.mp hc
  revert h2
  decide

/-- C7: workout extraction coerces the duration, totalDistance and
totalEnergyBurned columns independently per value: an unparseable entry
becomes null for that row only, leaving the rest of the column numeric —
unlike the all-or-nothing rule applied to the value column of extraction by
type. -/
theorem C7_workout_columns_independent {es : List Element} {df : DF}
    (h : process_workouts (Source.wellFormed es) = .ok df) :
    df.cols.lookup "duration"
      = (if es.filter isWorkout = [] then none
         else some (Col.nums ((es.filter isWorkout).map (fun e => (e.get "duration").bind pyFloat))))
    ∧ df.cols.lookup "totalDistance"
      = (if es.filter isWorkout = [] then none
         else some (Col.nums ((es.filter isWorkout).map (fun e => (e.get "totalDistance").bind pyFloat))))
    ∧ df.cols.lookup "totalEnergyBurned"
      = (if es.filter isWorkout = [] then none
         else some (Col.nums ((es.filter isWorkout).map (fun e => (e.get "totalEnergyBurned").bind pyFloat)))) := by
  rcases workouts_ok_inv h with ⟨hnil, hdf⟩ | ⟨hne, sd, ed, hsd, hed, hdf⟩
  · subst hdf
    refine ⟨?_, ?_, ?_⟩ <;> rw [if_pos hnil] <;> rfl
  · subst hdf
    refine ⟨?_, ?_, ?_⟩ <;>
      rw [if_neg hne] <;>
      simp [pdToNumericCoerce, List.lookup_cons, List.map_map, Function.comp]

/-- Witness for C7 at a concrete document whose second workout has an
unparseable duration: that cell is null, the other numeric cells parse. -/
theorem C7_witness :
    c7df.cols.lookup "duration"
      = (if c7es.filter isWorkout = [] then none
         else some (Col.nums ((c7es.filter isWorkout).map (fun e => (e.get "duration").bind pyFloat))))
    ∧ c7df.cols.lookup "totalDistance"
      = (if c7es.filter isWorkout = [] then none
         else some (Col.nums ((c7es.filter isWorkout).map (fun e => (e.get "totalDistance").bind pyFloat))))
    ∧ c7df.cols.lookup "totalEnergyBurned"
      = (if c7es.filter isWorkout = [] then none
         else some (Col.nums ((c7es.filter isWorkout).map (fun e => (e.get "totalEnergyBurned").bind pyFloat)))) :=
  @C7_workout_columns_independent c7es c7df rfl
